import Mathlib

/-!
Ditto scope helpers (`ditto-scope.js`).

A shallow embedding of the helper functions of the `Ditto` scope object:

* `buildDittoProtocolMsg`, `buildExternalMsg` — the two message builders,
* `arrayBufferToString`, `stringToArrayBuffer` — the byte/text codec,
* `asByteBuffer` — the copying wrapper around an `ArrayBuffer`.

JavaScript strings are sequences of 16-bit code units, `ArrayBuffer`s are
sequences of bytes.  Objects are ordered property lists.  The language
primitives the source calls (`charCodeAt`, `String.fromCharCode`, typed
array element stores, `TypedArray.prototype.set`) are embedded after
ECMAScript; implementation limits (stack depth, argument count, memory)
are not part of the model.
-/

namespace Ditto

/-! ## Data model -/

/-- One UTF-16 code unit, the element type of a JavaScript string. -/
abbrev CodeUnit := Fin 65536

/-- A JavaScript string: a finite sequence of UTF-16 code units. -/
abbrev JSString := List CodeUnit

/-- One element of a `Uint8Array`. -/
abbrev Byte := Fin 256

/-- The contents of an `ArrayBuffer`: a finite sequence of bytes. -/
abbrev ArrayBuffer := List Byte

/-- The UTF-16 encoding of one Unicode scalar value: itself when it lies in
the basic plane, a surrogate pair otherwise. -/
def utf16 (c : Char) : JSString :=
  if c.toNat < 0x10000 then
    [Fin.ofNat c.toNat]
  else
    [Fin.ofNat (0xD800 + (c.toNat - 0x10000) / 0x400),
     Fin.ofNat (0xDC00 + (c.toNat - 0x10000) % 0x400)]

/-- The JavaScript string holding a text given as Unicode scalar values. -/
def ofChars (t : List Char) : JSString :=
  t.flatMap utf16

/-- The JavaScript string written as a source literal. -/
def lit (s : String) : JSString :=
  ofChars s.toList

/-! ## Language primitives used by the codec -/

/-- The result of `string.charCodeAt(i)`: the code unit at index `i`, or `none`
(standing for `NaN`) when `i` is out of range. -/
def charCodeAt (string : JSString) (i : Nat) : Option Nat :=
  (string.get? i).map Fin.val

/-- The conversion `ToUint8` applied by a `Uint8Array` element store: `NaN`
becomes `0`, an integer is reduced modulo `2^8`. -/
def toUint8 : Option Nat → Byte
  | none => 0
  | some n => Fin.ofNat (n % 256)

/-- The conversion `ToUint16` applied by `String.fromCharCode` to an integer
argument. -/
def toUint16 (n : Nat) : CodeUnit :=
  Fin.ofNat (n % 65536)

/-- The elements of `new Uint8Array(arrayBuffer)` as numbers, the unsigned
value of each byte. -/
def uint8Elements (arrayBuffer : ArrayBuffer) : List Nat :=
  arrayBuffer.map Fin.val

/-- The function `String.fromCharCode(...codes)`: one code unit per argument. -/
def fromCharCode (codes : List Nat) : JSString :=
  codes.map toUint16

/-- The element store `bufView[i] = v` on a `Uint8Array`; a store past the end
is ignored. -/
def storeUint8 (bufView : ArrayBuffer) (i : Nat) (v : Option Nat) : ArrayBuffer :=
  bufView.set i (toUint8 v)

/-- The buffer `new ArrayBuffer(n)`: `n` zero bytes. -/
def newArrayBuffer (n : Nat) : ArrayBuffer :=
  List.replicate n 0

/-! ## The codec -/

/-- The function `arrayBufferToString(arrayBuffer)`:
`String.fromCharCode.apply(null, new Uint8Array(arrayBuffer))`. -/
def arrayBufferToString (arrayBuffer : ArrayBuffer) : JSString :=
  fromCharCode (uint8Elements arrayBuffer)

/-- One iteration of the loop of `stringToArrayBuffer`:
`bufView[i] = string.charCodeAt(i)`. -/
def stringToArrayBufferStep (string : JSString) (bufView : ArrayBuffer) (i : Nat) :
    ArrayBuffer :=
  storeUint8 bufView i (charCodeAt string i)

/-- The function `stringToArrayBuffer(string)`: a fresh buffer of
`string.length` bytes, then the loop
`for (let i = 0, strLen = string.length; i < strLen; i++)` over it. -/
def stringToArrayBuffer (string : JSString) : ArrayBuffer :=
  (List.range string.length).foldl (stringToArrayBufferStep string)
    (newArrayBuffer string.length)

/-- The byte stored for one code unit by `bufView[i] = string.charCodeAt(i)`. -/
def lowByte (c : CodeUnit) : Byte :=
  toUint8 (some c.val)

/-! ## Values and objects -/

/-- A JavaScript value as the builders see it.  Objects, arrays, buffers and
functions are values by reference; a number carries an integer, which covers
status codes (the builders store numbers and never compute with them). -/
inductive JSValue where
  | undefined
  | null
  | boolean (b : Bool)
  | number (n : Int)
  | string (s : JSString)
  | object (ref : Nat)
  deriving DecidableEq, Repr

/-- A plain JavaScript object: its own properties in creation order. -/
structure JSObject where
  props : List (String × JSValue)
  deriving DecidableEq, Repr

/-- The object literal `{}`. -/
def JSObject.empty : JSObject :=
  ⟨[]⟩

/-- The assignment `o.key = v`: an existing property is overwritten in place,
a new one is appended. -/
def JSObject.setProp (o : JSObject) (key : String) (v : JSValue) : JSObject :=
  if o.props.any (fun p => p.1 == key) then
    ⟨o.props.map (fun p => if p.1 == key then (key, v) else p)⟩
  else
    ⟨o.props ++ [(key, v)]⟩

/-- The read `o.key` of an own property.  JavaScript looks a name the object
does not own up along the prototype chain (`constructor`, `toString`, ... of
`Object.prototype`); the model has no prototype objects and gives `undefined`
for every name that is not an own property, so it stands for the read only at
own properties and at names no prototype defines. -/
def JSObject.getProp (o : JSObject) (key : String) : JSValue :=
  match o.props.lookup key with
  | some v => v
  | none => JSValue.undefined

/-- The own property names `Object.keys(o)`. -/
def JSObject.keys (o : JSObject) : List String :=
  o.props.map Prod.fst

/-! ## The builders -/

/-- The code unit of `"/"`. -/
def slash : CodeUnit := 47

/-- The function `buildDittoProtocolMsg`.  The six topic segments are strings,
the other arguments arbitrary values; an argument left out is `undefined`.
(`nspace` is the source parameter `namespace`.) -/
def buildDittoProtocolMsg (nspace id group channel criterion action : JSString)
    (path dittoHeaders value status extra : JSValue) : JSObject :=
  let dittoProtocolMsg := JSObject.empty
  let dittoProtocolMsg := dittoProtocolMsg.setProp "topic"
    (JSValue.string (nspace ++ lit "/" ++ id ++ lit "/" ++ group ++ lit "/" ++ channel
      ++ lit "/" ++ criterion ++ lit "/" ++ action))
  let dittoProtocolMsg := dittoProtocolMsg.setProp "path" path
  let dittoProtocolMsg := dittoProtocolMsg.setProp "headers" dittoHeaders
  let dittoProtocolMsg := dittoProtocolMsg.setProp "value" value
  let dittoProtocolMsg := dittoProtocolMsg.setProp "status" status
  let dittoProtocolMsg := dittoProtocolMsg.setProp "extra" extra
  dittoProtocolMsg

/-- The function `buildExternalMsg`; an argument left out is `undefined`. -/
def buildExternalMsg (headers textPayload bytePayload contentType : JSValue) : JSObject :=
  let externalMsg := JSObject.empty
  let externalMsg := externalMsg.setProp "headers" headers
  let externalMsg := externalMsg.setProp "textPayload" textPayload
  let externalMsg := externalMsg.setProp "bytePayload" bytePayload
  let externalMsg := externalMsg.setProp "contentType" contentType
  externalMsg

/-- The call `string.split(sep)` for a separator of one code unit: the pieces
between consecutive occurrences of the separator, empty pieces included. -/
def split (sep : CodeUnit) : JSString → List JSString
  | [] => [[]]
  | c :: cs =>
    if c = sep then
      [] :: split sep cs
    else
      match split sep cs with
      | [] => [[c]]
      | piece :: pieces => (c :: piece) :: pieces

/-- The segments `msg.topic.split("/")` of a message whose topic is a string. -/
def topicSegments (msg : JSObject) : Option (List JSString) :=
  match msg.getProp "topic" with
  | JSValue.string topic => some (split slash topic)
  | _ => none

/-! ## Buffers by reference -/

/-- The store of allocated `ArrayBuffer`s: reference `r` is the `r`-th buffer
allocated. -/
abbrev Heap := List ArrayBuffer

/-- The allocation `new ArrayBuffer(n)`: the extended store and the reference
of the new, zero-filled buffer. -/
def allocArrayBuffer (heap : Heap) (n : Nat) : Heap × Nat :=
  (heap ++ [newArrayBuffer n], heap.length)

/-- The call `target.set(source)` on two `Uint8Array`s, by contents: the source
bytes overwrite the start of the target; `none` is the `RangeError` for a source
longer than the target. -/
def typedArraySet (target source : ArrayBuffer) : Option ArrayBuffer :=
  if source.length ≤ target.length then
    some (source ++ target.drop source.length)
  else
    none

/-- The store `new Uint8Array(buffer)[i] = v` through a view on the buffer
with reference `buffer`. -/
def writeByte (heap : Heap) (buffer : Nat) (i : Nat) (v : Option Nat) : Heap :=
  match heap.get? buffer with
  | some contents => heap.set buffer (storeUint8 contents i v)
  | none => heap

/-- A sequence of element stores through views on one buffer. -/
def writeBytes (heap : Heap) (buffer : Nat) (writes : List (Nat × Option Nat)) : Heap :=
  writes.foldl (fun h w => writeByte h buffer w.1 w.2) heap

/-- Modelled from the spec: the `ByteBuffer` of the bytebuffer.js library
(`dcodeIO.ByteBuffer`), which is not part of the source.  A view on a backing
`ArrayBuffer`, held by reference, between `offset` and `limit`. -/
structure ByteBuffer where
  buffer : Nat
  offset : Nat
  limit : Nat
  deriving DecidableEq, Repr

/-- Modelled from the spec: `dcodeIO.ByteBuffer.wrap(buffer)` of the
bytebuffer.js library, which is not part of the source.  The view covers the
whole backing buffer and shares it; `none` for a dangling reference. -/
def ByteBuffer.wrap (heap : Heap) (buffer : Nat) : Option ByteBuffer :=
  (heap.get? buffer).map (fun contents => ⟨buffer, 0, contents.length⟩)

/-- The bytes a `ByteBuffer` shows in a store. -/
def ByteBuffer.bytes (heap : Heap) (bb : ByteBuffer) : Option ArrayBuffer :=
  (heap.get? bb.buffer).map (fun contents => (contents.take bb.limit).drop bb.offset)

/-- The function `asByteBuffer(arrayBuffer)` on a reference to an allocated
`ArrayBuffer`: allocate `byteBuffer` of the same `byteLength`, copy the bytes
with `Uint8Array.set`, wrap `byteBuffer`.  `none` when a step throws. -/
def asByteBuffer (heap : Heap) (arrayBuffer : Nat) : Option (Heap × ByteBuffer) :=
  match heap.get? arrayBuffer with
  | none => none
  | some source =>
    let (heap1, byteBuffer) := allocArrayBuffer heap source.length
    match heap1.get? byteBuffer, heap1.get? arrayBuffer with
    | some target, some source1 =>
      match typedArraySet target source1 with
      | none => none
      | some copied =>
        let heap2 := heap1.set byteBuffer copied
        (ByteBuffer.wrap heap2 byteBuffer).map (fun bb => (heap2, bb))
    | _, _ => none

/-! ## Calls with an argument left out -/

/-- The errors a call of a codec function can raise. -/
inductive JSError where
  | typeError
  | rangeError
  deriving DecidableEq, Repr

/-- A call `arrayBufferToString(arrayBuffer)` with a buffer, or with the
argument left out (`none`, the value `undefined`): `new Uint8Array(undefined)`
is an array of length `ToIndex(undefined) = 0`, so `String.fromCharCode` is
applied to no arguments. -/
def arrayBufferToStringCall (arrayBuffer : Option ArrayBuffer) : Except JSError JSString :=
  match arrayBuffer with
  | some contents => Except.ok (arrayBufferToString contents)
  | none => Except.ok (fromCharCode [])

/-- A call `stringToArrayBuffer(string)` with a string, or with the argument
left out (`none`, the value `undefined`): the first step `string.length` reads a
property of `undefined`, which raises a `TypeError`. -/
def stringToArrayBufferCall (string : Option JSString) : Except JSError ArrayBuffer :=
  match string with
  | some s => Except.ok (stringToArrayBuffer s)
  | none => Except.error JSError.typeError

/-- A call `asByteBuffer(arrayBuffer)` with a reference to a buffer, or with the
argument left out (`none`, the value `undefined`): the first step
`arrayBuffer.byteLength` reads a property of `undefined`, which raises a
`TypeError`.  A run of `asByteBuffer` that does not return (`Uint8Array.set`
throwing, or a reference to no allocated buffer) is reported as a `RangeError`. -/
def asByteBufferCall (heap : Heap) (arrayBuffer : Option Nat) :
    Except JSError (Heap × ByteBuffer) :=
  match arrayBuffer with
  | none => Except.error JSError.typeError
  | some ref =>
    match asByteBuffer heap ref with
    | some result => Except.ok result
    | none => Except.error JSError.rangeError

/-! ## Calls of the protocol message builder with arbitrary values -/

/-- The conversion `ToString(ToPrimitive(v))` that the operator `+` applies to
an operand when the other operand is a string.  A primitive value has a fixed
string; converting an object runs the object's own `valueOf` / `toString`,
which may return any string or raise, and `objectToString ref` is that outcome
for the object `ref`.  `numberToString` is `Number::toString`. -/
def toStringOperand (objectToString : Nat → Except JSError JSString)
    (numberToString : Int → JSString) : JSValue → Except JSError JSString
  | JSValue.undefined => Except.ok (lit "undefined")
  | JSValue.null => Except.ok (lit "null")
  | JSValue.boolean b => Except.ok (if b then lit "true" else lit "false")
  | JSValue.number n => Except.ok (numberToString n)
  | JSValue.string s => Except.ok s
  | JSValue.object ref => objectToString ref

/-- A call of `buildDittoProtocolMsg` with arbitrary argument values.  The
topic expression `namespace + "/" + id + ... + action` converts the six
segment arguments from left to right; the first conversion that raises ends
the call with its error; otherwise the record is built from the converted
segments. -/
def buildDittoProtocolMsgCall (objectToString : Nat → Except JSError JSString)
    (numberToString : Int → JSString)
    (nspace id group channel criterion action : JSValue)
    (path dittoHeaders value status extra : JSValue) : Except JSError JSObject :=
  (toStringOperand objectToString numberToString nspace).bind fun s1 =>
  (toStringOperand objectToString numberToString id).bind fun s2 =>
  (toStringOperand objectToString numberToString group).bind fun s3 =>
  (toStringOperand objectToString numberToString channel).bind fun s4 =>
  (toStringOperand objectToString numberToString criterion).bind fun s5 =>
  (toStringOperand objectToString numberToString action).bind fun s6 =>
  Except.ok (buildDittoProtocolMsg s1 s2 s3 s4 s5 s6 path dittoHeaders value status extra)

/-! # Theorems -/

/-! ## Arithmetic of the conversions -/

theorem toUint8_val (n : Nat) : (toUint8 (some n)).val = n % 256 := by
  simp [toUint8, Fin.ofNat]

theorem toUint16_val (n : Nat) : (toUint16 n).val = n % 65536 := by
  simp [toUint16, Fin.ofNat]

theorem lowByte_val (c : CodeUnit) : (lowByte c).val = c.val % 256 := by
  simp [lowByte, toUint8_val]

theorem lowByte_toUint16 (x : Byte) : lowByte (toUint16 x.val) = x := by
  apply Fin.ext
  rw [lowByte_val, toUint16_val]
  have := x.isLt
  omega

theorem toUint16_lowByte_val (c : CodeUnit) : (toUint16 (lowByte c).val).val = c.val % 256 := by
  rw [toUint16_val, lowByte_val]
  omega

theorem toUint16_lowByte_eq_iff (c : CodeUnit) :
    toUint16 (lowByte c).val = c ↔ c.val < 256 := by
  constructor
  · intro h
    have hv := congrArg Fin.val h
    rw [toUint16_lowByte_val] at hv
    omega
  · intro h
    apply Fin.ext
    rw [toUint16_lowByte_val]
    omega

/-! ## The codec as element-wise maps -/

theorem set_append_drop (pre l : ArrayBuffer) (k : Nat) (v : Byte)
    (hpre : pre.length = k) (h : k < l.length) :
    (pre ++ l.drop k).set k v = (pre ++ [v]) ++ l.drop (k + 1) := by
  have hd : l.drop k = l[k] :: l.drop (k + 1) := List.drop_eq_getElem_cons h
  rw [List.set_append_right _ _ (by omega), hpre, Nat.sub_self, hd, List.set_cons_zero,
    List.append_assoc, List.singleton_append]

/-- After `k` iterations the first `k` bytes are the low bytes of the first `k`
code units and the rest of the buffer is untouched. -/
theorem loop_invariant (string : JSString) (bufView : ArrayBuffer)
    (hlen : bufView.length = string.length) :
    ∀ k, k ≤ string.length →
      (List.range k).foldl (stringToArrayBufferStep string) bufView
        = (string.take k).map lowByte ++ bufView.drop k := by
  intro k
  induction k with
  | zero => intro _; simp
  | succ k ih =>
    intro hk
    have hlt : k < string.length := by omega
    rw [List.range_succ, List.foldl_append, ih (by omega)]
    simp only [List.foldl_cons, List.foldl_nil, stringToArrayBufferStep, storeUint8]
    rw [set_append_drop _ _ _ _ (by simp; omega) (by omega)]
    rw [List.take_succ, List.map_append]
    simp [charCodeAt, List.getElem?_eq_getElem hlt, lowByte]

theorem stringToArrayBuffer_eq_map (string : JSString) :
    stringToArrayBuffer string = string.map lowByte := by
  unfold stringToArrayBuffer
  rw [loop_invariant string _ (by simp [newArrayBuffer]) string.length (le_refl _)]
  simp [newArrayBuffer]

theorem arrayBufferToString_eq_map (arrayBuffer : ArrayBuffer) :
    arrayBufferToString arrayBuffer = arrayBuffer.map (fun x => toUint16 x.val) := by
  simp [arrayBufferToString, fromCharCode, uint8Elements, List.map_map, Function.comp_def]

theorem roundTrip_text_eq_map (t : JSString) :
    arrayBufferToString (stringToArrayBuffer t)
      = t.map (fun c => toUint16 (lowByte c).val) := by
  rw [stringToArrayBuffer_eq_map, arrayBufferToString_eq_map, List.map_map]
  rfl

theorem map_eq_self_iff {α : Type} (f : α → α) (l : List α) :
    l.map f = l ↔ ∀ a ∈ l, f a = a := by
  induction l with
  | nil => simp
  | cons a l ih => simp [ih]


/-! ## Code points and code units -/

theorem char_toNat_lt (c : Char) : c.toNat < 0x110000 := by
  have h := c.valid
  simp only [UInt32.isValidChar, Nat.isValidChar] at h
  have : c.toNat = c.val.toNat := rfl
  omega

theorem utf16_single_byte_iff (c : Char) :
    (∀ u ∈ utf16 c, u.val < 256) ↔ c.toNat < 256 := by
  have hlt := char_toNat_lt c
  unfold utf16
  split
  · simp only [List.mem_singleton, forall_eq, Fin.ofNat, Fin.val_mk]
    omega
  · simp only [List.mem_cons, List.mem_singleton, forall_eq_or_imp, forall_eq, Fin.ofNat,
      Fin.val_mk, List.not_mem_nil, false_imp_iff, implies_true, and_true]
    omega

theorem ofChars_single_byte_iff (t : List Char) :
    (∀ u ∈ ofChars t, u.val < 256) ↔ ∀ c ∈ t, c.toNat < 256 := by
  simp only [ofChars, List.mem_flatMap, forall_exists_index, and_imp]
  constructor
  · intro h c hc
    exact (utf16_single_byte_iff c).mp (fun u hu => h u c hc hu)
  · intro h u c hc hu
    exact (utf16_single_byte_iff c).mpr (h c hc) u hu

/-! ## Round trips -/

/-- C1. Byte round trip: for every byte buffer `b`,
`stringToArrayBuffer(arrayBufferToString(b))` is `b`: it has the length of `b`
and the same byte at every index. -/
theorem byte_round_trip (b : ArrayBuffer) :
    stringToArrayBuffer (arrayBufferToString b) = b
      ∧ (stringToArrayBuffer (arrayBufferToString b)).length = b.length
      ∧ ∀ i : Nat, (stringToArrayBuffer (arrayBufferToString b)).get? i = b.get? i := by
  have h : stringToArrayBuffer (arrayBufferToString b) = b := by
    rw [stringToArrayBuffer_eq_map, arrayBufferToString_eq_map, List.map_map]
    rw [map_eq_self_iff]
    intro x _
    exact lowByte_toUint16 x
  rw [h]
  exact ⟨rfl, rfl, fun _ => rfl⟩

/-- C2. Text round trip on the single-byte range: for every text `t` whose
code units are all below 256, `arrayBufferToString(stringToArrayBuffer(t))`
is `t`. -/
theorem text_round_trip (t : JSString) (h : ∀ c ∈ t, c.val < 256) :
    arrayBufferToString (stringToArrayBuffer t) = t := by
  rw [roundTrip_text_eq_map, map_eq_self_iff]
  intro c hc
  exact (toUint16_lowByte_eq_iff c).mpr (h c hc)

theorem text_round_trip_witness :
    (lit "Ditto\x00ÿ").all (fun c => decide (c.val < 256)) = true
      ∧ arrayBufferToString (stringToArrayBuffer (lit "Ditto\x00ÿ")) = lit "Ditto\x00ÿ" :=
  ⟨by decide,
   text_round_trip (lit "Ditto\x00ÿ") (fun c hc =>
     of_decide_eq_true (List.all_eq_true.mp
       (by decide : (lit "Ditto\x00ÿ").all (fun c => decide (c.val < 256)) = true) c hc))⟩

/-- C3. The text round trip is lossless exactly on the single-byte range:
`arrayBufferToString(stringToArrayBuffer(t))` is `t` if and only if every code
unit of `t` is below 256, and a text with a code unit of 256 or more is
changed by the round trip; the same holds for a text given by its code
points. -/
theorem text_round_trip_iff (t : JSString) (u : List Char) :
    (arrayBufferToString (stringToArrayBuffer t) = t ↔ ∀ c ∈ t, c.val < 256)
      ∧ ((∃ c ∈ t, 256 ≤ c.val) → arrayBufferToString (stringToArrayBuffer t) ≠ t)
      ∧ (arrayBufferToString (stringToArrayBuffer (ofChars u)) = ofChars u
          ↔ ∀ c ∈ u, c.toNat < 256) := by
  have hiff : ∀ s : JSString,
      arrayBufferToString (stringToArrayBuffer s) = s ↔ ∀ c ∈ s, c.val < 256 := by
    intro s
    rw [roundTrip_text_eq_map, map_eq_self_iff]
    constructor
    · intro h c hc
      exact (toUint16_lowByte_eq_iff c).mp (h c hc)
    · intro h c hc
      exact (toUint16_lowByte_eq_iff c).mpr (h c hc)
  refine ⟨hiff t, ?_, ?_⟩
  · rintro ⟨c, hc, hge⟩ heq
    have := (hiff t).mp heq c hc
    omega
  · rw [hiff (ofChars u), ofChars_single_byte_iff]

theorem text_round_trip_iff_witness :
    (∃ c ∈ lit "a€", 256 ≤ c.val)
      ∧ arrayBufferToString (stringToArrayBuffer (lit "a€")) ≠ lit "a€"
      ∧ arrayBufferToString (stringToArrayBuffer (lit "a€")) = lit "a¬" :=
  ⟨by decide, (text_round_trip_iff (lit "a€") []).2.1 (by decide), by decide⟩

/-! ## Element-wise behaviour of the codec -/

theorem stringToArrayBuffer_get? (t : JSString) (i : Nat) :
    ((stringToArrayBuffer t).get? i).map Fin.val = (t.get? i).map (fun u => u.val % 256) := by
  rw [stringToArrayBuffer_eq_map]
  simp only [List.get?_eq_getElem?, List.getElem?_map, Option.map_map]
  congr 1
  funext u
  exact lowByte_val u

theorem ofChars_length (t : List Char) :
    (ofChars t).length = (t.map (fun c => if c.toNat < 0x10000 then 1 else 2)).sum := by
  induction t with
  | nil => rfl
  | cons c t ih =>
    have hc : (utf16 c).length = if c.toNat < 0x10000 then 1 else 2 := by
      unfold utf16
      split <;> rfl
    have hcons : ofChars (c :: t) = utf16 c ++ ofChars t := by simp [ofChars]
    rw [hcons, List.length_append, ih, hc]
    simp

theorem ofChars_basic_plane (t : List Char) (h : ∀ c ∈ t, c.toNat < 0x10000) :
    ofChars t = t.map (fun c => Fin.ofNat c.toNat) := by
  induction t with
  | nil => rfl
  | cons c t ih =>
    have hc : utf16 c = [Fin.ofNat c.toNat] := by
      unfold utf16
      rw [if_pos (h c (List.mem_cons_self c t))]
    have hcons : ofChars (c :: t) = utf16 c ++ ofChars t := by simp [ofChars]
    rw [hcons, hc, ih (fun d hd => h d (List.mem_cons_of_mem c hd))]
    rfl

/-- C6. Low-byte truncation: for every text `t` and index `i < t.length`, byte
`i` of `stringToArrayBuffer(t)` is the code unit of `t` at `i` modulo 256; the
text U+20AC gives the single byte 0xAC and the text U+0100 the single byte
0x00. -/
theorem low_byte_truncation (t : JSString) (i : Nat) (h : i < t.length) :
    ((stringToArrayBuffer t).get? i).map Fin.val = some ((t.get ⟨i, h⟩).val % 256)
      ∧ lit "€" = [0x20AC] ∧ stringToArrayBuffer (lit "€") = [0xAC]
      ∧ lit "Ā" = [0x0100] ∧ stringToArrayBuffer (lit "Ā") = [0x00] := by
  refine ⟨?_, by decide, by decide, by decide, by decide⟩
  rw [stringToArrayBuffer_get?, List.get?_eq_get h]
  rfl

theorem low_byte_truncation_witness :
    ((stringToArrayBuffer [0x41, 0x20AC, 0x0100]).get? 1).map Fin.val = some (0x20AC % 256)
      ∧ stringToArrayBuffer [0x41, 0x20AC, 0x0100] = [0x41, 0xAC, 0x00] :=
  ⟨(low_byte_truncation [0x41, 0x20AC, 0x0100] 1 (by decide)).1, by decide⟩

/-- C7 as stated fails: the text of the single code point U+1F600 is one
character, `stringToArrayBuffer` returns two bytes for it, 0x3D and 0x00, the
low bytes of its two surrogate code units. -/
theorem one_byte_per_code_point_fails :
    [Char.ofNat 0x1F600].length = 1
      ∧ (Char.ofNat 0x1F600).toNat = 0x1F600
      ∧ ofChars [Char.ofNat 0x1F600] = [0xD83D, 0xDE00]
      ∧ stringToArrayBuffer (ofChars [Char.ofNat 0x1F600]) = [0x3D, 0x00]
      ∧ (stringToArrayBuffer (ofChars [Char.ofNat 0x1F600])).length
          ≠ [Char.ofNat 0x1F600].length := by
  decide

/-- C7 amended. One byte per UTF-16 code unit: for every text `t`,
`stringToArrayBuffer` returns one byte per code unit of `t`, the code unit
modulo 256; a code point up to 0xFFFF is one code unit and a larger one is
two; when every code point of `t` is at most 0xFFFF there is one byte per
code point, the code point modulo 256. -/
theorem one_byte_per_code_unit (t : List Char) :
    (stringToArrayBuffer (ofChars t)).length = (ofChars t).length
      ∧ (∀ i : Nat, ((stringToArrayBuffer (ofChars t)).get? i).map Fin.val
          = ((ofChars t).get? i).map (fun u => u.val % 256))
      ∧ (ofChars t).length = (t.map (fun c => if c.toNat < 0x10000 then 1 else 2)).sum
      ∧ ((∀ c ∈ t, c.toNat < 0x10000) →
          (stringToArrayBuffer (ofChars t)).length = t.length
            ∧ ∀ i : Nat, ((stringToArrayBuffer (ofChars t)).get? i).map Fin.val
                = (t.get? i).map (fun c => c.toNat % 256)) := by
  refine ⟨?_, stringToArrayBuffer_get? _, ofChars_length t, ?_⟩
  · rw [stringToArrayBuffer_eq_map, List.length_map]
  · intro h
    have hmap := ofChars_basic_plane t h
    constructor
    · rw [stringToArrayBuffer_eq_map, hmap, List.length_map, List.length_map]
    · intro i
      rw [stringToArrayBuffer_get?, hmap]
      simp only [List.get?_eq_getElem?, List.getElem?_map, Option.map_map]
      cases hi : t[i]? with
      | none => rfl
      | some c =>
        have hc : c.toNat < 0x10000 := h c (List.getElem?_mem hi)
        simp only [Option.map_some', Function.comp_apply, Fin.ofNat, Fin.val_mk]
        congr 1
        omega

theorem one_byte_per_code_unit_witness :
    ("a€").toList.all (fun c => decide (c.toNat < 0x10000)) = true
      ∧ (stringToArrayBuffer (ofChars ("a€").toList)).length = ("a€").toList.length
      ∧ stringToArrayBuffer (ofChars ("a€").toList) = [0x61, 0xAC] :=
  ⟨by decide,
   ((one_byte_per_code_unit ("a€").toList).2.2.2 (fun c hc =>
     of_decide_eq_true (List.all_eq_true.mp
       (by decide : ("a€").toList.all (fun c => decide (c.toNat < 0x10000)) = true) c hc))).1,
   by decide⟩

/-- C8. Byte-to-character mapping: for every byte buffer `b`,
`arrayBufferToString(b)` has as many code units as `b` has bytes, the code
unit at each index is the unsigned value of the byte at that index, and every
code unit of the result is below 256. -/
theorem byte_to_character (b : ArrayBuffer) :
    (arrayBufferToString b).length = b.length
      ∧ (∀ i : Nat, ((arrayBufferToString b).get? i).map Fin.val = (b.get? i).map Fin.val)
      ∧ (∀ i : Nat, ∀ h : i < b.length,
          ((arrayBufferToString b).get? i).map Fin.val = some (b.get ⟨i, h⟩).val)
      ∧ ∀ c ∈ arrayBufferToString b, c.val < 256 := by
  have hval : ∀ x : Byte, (toUint16 x.val).val = x.val := by
    intro x
    rw [toUint16_val]
    have := x.isLt
    omega
  have hget : ∀ i : Nat,
      ((arrayBufferToString b).get? i).map Fin.val = (b.get? i).map Fin.val := by
    intro i
    rw [arrayBufferToString_eq_map]
    simp only [List.get?_eq_getElem?, List.getElem?_map, Option.map_map]
    congr 1
    funext x
    exact hval x
  refine ⟨?_, hget, ?_, ?_⟩
  · rw [arrayBufferToString_eq_map, List.length_map]
  · intro i h
    rw [hget, List.get?_eq_get h]
    rfl
  · intro c hc
    rw [arrayBufferToString_eq_map, List.mem_map] at hc
    obtain ⟨x, _, rfl⟩ := hc
    rw [hval]
    exact x.isLt

/-! ## The protocol message builder -/

theorem lit_slash : lit "/" = [slash] := by decide

/-- The record `buildDittoProtocolMsg` returns, property by property. -/
theorem buildDittoProtocolMsg_props (nspace id group channel criterion action : JSString)
    (path dittoHeaders value status extra : JSValue) :
    (buildDittoProtocolMsg nspace id group channel criterion action
        path dittoHeaders value status extra).props
      = [("topic", JSValue.string (nspace ++ lit "/" ++ id ++ lit "/" ++ group ++ lit "/"
            ++ channel ++ lit "/" ++ criterion ++ lit "/" ++ action)),
         ("path", path), ("headers", dittoHeaders), ("value", value),
         ("status", status), ("extra", extra)] := by
  rfl

theorem buildDittoProtocolMsg_topic (nspace id group channel criterion action : JSString)
    (path dittoHeaders value status extra : JSValue) :
    (buildDittoProtocolMsg nspace id group channel criterion action
        path dittoHeaders value status extra).getProp "topic"
      = JSValue.string (nspace ++ slash :: (id ++ slash :: (group ++ slash :: (channel
          ++ slash :: (criterion ++ slash :: action))))) := by
  have h : (buildDittoProtocolMsg nspace id group channel criterion action
        path dittoHeaders value status extra).getProp "topic"
      = JSValue.string (nspace ++ lit "/" ++ id ++ lit "/" ++ group ++ lit "/"
            ++ channel ++ lit "/" ++ criterion ++ lit "/" ++ action) := by
    rfl
  rw [h, lit_slash]
  simp

/-! ## Splitting at a separator -/

theorem split_no_sep (sep : CodeUnit) (a : JSString) (h : sep ∉ a) : split sep a = [a] := by
  induction a with
  | nil => rfl
  | cons c cs ih =>
    have hc : c ≠ sep := fun e => h (e ▸ List.mem_cons_self c cs)
    have hcs : sep ∉ cs := fun m => h (List.mem_cons_of_mem c m)
    simp [split, hc, ih hcs]

theorem split_append_sep (sep : CodeUnit) (a rest : JSString) (h : sep ∉ a) :
    split sep (a ++ sep :: rest) = a :: split sep rest := by
  induction a with
  | nil => simp [split]
  | cons c cs ih =>
    have hc : c ≠ sep := fun e => h (e ▸ List.mem_cons_self c cs)
    have hcs : sep ∉ cs := fun m => h (List.mem_cons_of_mem c m)
    simp [split, hc, ih hcs]

theorem split_length (sep : CodeUnit) (s : JSString) :
    (split sep s).length = s.count sep + 1 := by
  induction s with
  | nil => rfl
  | cons c cs ih =>
    by_cases hc : c = sep
    · subst hc
      simp [split, ih]
    · have hne : (c == sep) = false := by simpa using hc
      rw [split, if_neg hc, List.count_cons, hne]
      cases hs : split sep cs with
      | nil => rw [hs] at ih; simp at ih
      | cons piece pieces => rw [hs] at ih; simpa using ih

/-- C4. Topic formatting: for every six strings the `topic` of the message is
`namespace + "/" + id + "/" + group + "/" + channel + "/" + criterion + "/" +
action`, the six arguments verbatim joined by `"/"`; the documented example
gives `"org.eclipse.ditto/thing-1/things/twin/commands/modify"`. -/
theorem topic_formatting (nspace id group channel criterion action : JSString)
    (path dittoHeaders value status extra : JSValue) :
    (buildDittoProtocolMsg nspace id group channel criterion action
        path dittoHeaders value status extra).getProp "topic"
      = JSValue.string (nspace ++ lit "/" ++ id ++ lit "/" ++ group ++ lit "/"
          ++ channel ++ lit "/" ++ criterion ++ lit "/" ++ action)
    ∧ (buildDittoProtocolMsg nspace id group channel criterion action
        path dittoHeaders value status extra).getProp "topic"
      = JSValue.string
          (List.intercalate (lit "/") [nspace, id, group, channel, criterion, action])
    ∧ (buildDittoProtocolMsg (lit "org.eclipse.ditto") (lit "thing-1") (lit "things")
        (lit "twin") (lit "commands") (lit "modify")
        path dittoHeaders value status extra).getProp "topic"
      = JSValue.string (lit "org.eclipse.ditto/thing-1/things/twin/commands/modify") := by
  refine ⟨rfl, ?_, ?_⟩
  · rw [buildDittoProtocolMsg_topic, lit_slash]
    simp [List.intercalate]
  · rw [buildDittoProtocolMsg_topic]
    decide

/-- C5 as stated fails: with the namespace `"a/b"` the topic splits at `"/"`
into seven pieces, not into the six arguments. -/
theorem topic_six_segments_fails :
    topicSegments (buildDittoProtocolMsg (lit "a/b") (lit "c") (lit "things") (lit "twin")
        (lit "commands") (lit "modify") JSValue.undefined JSValue.undefined
        JSValue.undefined JSValue.undefined JSValue.undefined)
      = some [lit "a", lit "b", lit "c", lit "things", lit "twin", lit "commands",
          lit "modify"]
    ∧ topicSegments (buildDittoProtocolMsg (lit "a/b") (lit "c") (lit "things") (lit "twin")
        (lit "commands") (lit "modify") JSValue.undefined JSValue.undefined
        JSValue.undefined JSValue.undefined JSValue.undefined)
      ≠ some [lit "a/b", lit "c", lit "things", lit "twin", lit "commands", lit "modify"] := by
  decide

/-- C5 amended. Topic invariant: the topic is always the six arguments joined
by `"/"` in the order namespace, id, group, channel, criterion, action;
splitting it at every `"/"` gives six pieces plus one for every `"/"` inside
an argument, and exactly the list of the six arguments when no argument
contains `"/"`. -/
theorem topic_six_segments (nspace id group channel criterion action : JSString)
    (path dittoHeaders value status extra : JSValue) :
    (buildDittoProtocolMsg nspace id group channel criterion action
        path dittoHeaders value status extra).getProp "topic"
      = JSValue.string
          (List.intercalate [slash] [nspace, id, group, channel, criterion, action])
    ∧ (∃ pieces, topicSegments (buildDittoProtocolMsg nspace id group channel criterion
          action path dittoHeaders value status extra) = some pieces
        ∧ pieces.length = 6 + (nspace.count slash + id.count slash + group.count slash
            + channel.count slash + criterion.count slash + action.count slash))
    ∧ (slash ∉ nspace → slash ∉ id → slash ∉ group → slash ∉ channel →
        slash ∉ criterion → slash ∉ action →
        topicSegments (buildDittoProtocolMsg nspace id group channel criterion action
          path dittoHeaders value status extra)
          = some [nspace, id, group, channel, criterion, action]) := by
  have htopic := buildDittoProtocolMsg_topic nspace id group channel criterion action
    path dittoHeaders value status extra
  refine ⟨?_, ?_, ?_⟩
  · rw [htopic]
    simp [List.intercalate]
  · refine ⟨_, by rw [topicSegments, htopic], ?_⟩
    rw [split_length]
    simp only [List.count_append, List.count_cons_self]
    omega
  · intro h1 h2 h3 h4 h5 h6
    rw [topicSegments, htopic]
    simp only
    rw [split_append_sep _ _ _ h1, split_append_sep _ _ _ h2, split_append_sep _ _ _ h3,
      split_append_sep _ _ _ h4, split_append_sep _ _ _ h5, split_no_sep _ _ h6]

theorem topic_six_segments_witness :
    topicSegments (buildDittoProtocolMsg (lit "org.eclipse.ditto") (lit "thing-1")
        (lit "things") (lit "twin") (lit "commands") (lit "modify")
        (JSValue.string (lit "/attributes")) (JSValue.object 0) (JSValue.number 1)
        JSValue.undefined JSValue.undefined)
      = some [lit "org.eclipse.ditto", lit "thing-1", lit "things", lit "twin",
          lit "commands", lit "modify"] :=
  (topic_six_segments (lit "org.eclipse.ditto") (lit "thing-1")
        (lit "things") (lit "twin") (lit "commands") (lit "modify")
        (JSValue.string (lit "/attributes")) (JSValue.object 0) (JSValue.number 1)
        JSValue.undefined JSValue.undefined).2.2
    (by decide) (by decide) (by decide) (by decide) (by decide) (by decide)

/-! ## Pass-through of the remaining fields -/

/-- C10. Protocol message pass-through: the record returned by
`buildDittoProtocolMsg` has `path`, `headers`, `value`, `status` and `extra`
equal to the arguments `path`, `dittoHeaders`, `value`, `status` and `extra`
(so an argument left `undefined` stays `undefined`), and its own properties
are exactly `topic`, `path`, `headers`, `value`, `status`, `extra`, in that
order, each holding its argument. -/
theorem protocol_message_pass_through
    (nspace id group channel criterion action : JSString)
    (path dittoHeaders value status extra : JSValue) :
    (buildDittoProtocolMsg nspace id group channel criterion action
        path dittoHeaders value status extra).getProp "path" = path
    ∧ (buildDittoProtocolMsg nspace id group channel criterion action
        path dittoHeaders value status extra).getProp "headers" = dittoHeaders
    ∧ (buildDittoProtocolMsg nspace id group channel criterion action
        path dittoHeaders value status extra).getProp "value" = value
    ∧ (buildDittoProtocolMsg nspace id group channel criterion action
        path dittoHeaders value status extra).getProp "status" = status
    ∧ (buildDittoProtocolMsg nspace id group channel criterion action
        path dittoHeaders value status extra).getProp "extra" = extra
    ∧ (buildDittoProtocolMsg nspace id group channel criterion action
        path dittoHeaders value status extra).keys
        = ["topic", "path", "headers", "value", "status", "extra"]
    ∧ (buildDittoProtocolMsg nspace id group channel criterion action
        path dittoHeaders value status extra).props
        = [("topic", JSValue.string (nspace ++ lit "/" ++ id ++ lit "/" ++ group ++ lit "/"
              ++ channel ++ lit "/" ++ criterion ++ lit "/" ++ action)),
           ("path", path), ("headers", dittoHeaders), ("value", value),
           ("status", status), ("extra", extra)]
    ∧ (buildDittoProtocolMsg nspace id group channel criterion action
        path dittoHeaders JSValue.undefined JSValue.undefined JSValue.undefined).props
        = [("topic", JSValue.string (nspace ++ lit "/" ++ id ++ lit "/" ++ group ++ lit "/"
              ++ channel ++ lit "/" ++ criterion ++ lit "/" ++ action)),
           ("path", path), ("headers", dittoHeaders), ("value", JSValue.undefined),
           ("status", JSValue.undefined), ("extra", JSValue.undefined)] := by
  exact ⟨rfl, rfl, rfl, rfl, rfl, rfl, rfl, rfl⟩

/-! ## The copying wrapper -/

theorem typedArraySet_zeros (source : ArrayBuffer) :
    typedArraySet (newArrayBuffer source.length) source = some source := by
  simp [typedArraySet, newArrayBuffer]

/-- The run of `asByteBuffer` on an allocated buffer: the store gains one buffer
holding a copy of the argument, and the result views that new buffer. -/
theorem asByteBuffer_eq (heap : Heap) (arrayBuffer : Nat) (b : ArrayBuffer)
    (h : heap.get? arrayBuffer = some b) :
    asByteBuffer heap arrayBuffer = some (heap ++ [b], ⟨heap.length, 0, b.length⟩) := by
  have hlt : arrayBuffer < heap.length := by
    rw [List.get?_eq_getElem?] at h
    exact (List.getElem?_eq_some.mp h).1
  have hnew : (heap ++ [newArrayBuffer b.length]).get? heap.length
      = some (newArrayBuffer b.length) := by
    simp
  have hold : (heap ++ [newArrayBuffer b.length]).get? arrayBuffer = some b := by
    rw [List.get?_eq_getElem?, List.getElem?_append_left hlt, ← List.get?_eq_getElem?, h]
  have hset : (heap ++ [newArrayBuffer b.length]).set heap.length b = heap ++ [b] := by
    rw [List.set_append_right _ _ (le_refl _)]
    simp
  unfold asByteBuffer
  rw [h]
  simp only [allocArrayBuffer]
  rw [hnew, hold]
  simp only [typedArraySet_zeros, hset, ByteBuffer.wrap]
  simp

theorem writeByte_append (heap : Heap) (b : ArrayBuffer) (buffer i : Nat) (v : Option Nat)
    (hlt : buffer < heap.length) :
    writeByte (heap ++ [b]) buffer i v = writeByte heap buffer i v ++ [b]
      ∧ (writeByte heap buffer i v).length = heap.length := by
  have hget : (heap ++ [b]).get? buffer = heap.get? buffer := by
    rw [List.get?_eq_getElem?, List.getElem?_append_left hlt, List.get?_eq_getElem?]
  unfold writeByte
  rw [hget]
  cases heap.get? buffer with
  | none => exact ⟨rfl, rfl⟩
  | some contents =>
    simp only [List.length_set, and_true]
    rw [List.set_append_left _ _ hlt]

theorem writeBytes_append (b : ArrayBuffer) (buffer : Nat)
    (writes : List (Nat × Option Nat)) :
    ∀ heap : Heap, buffer < heap.length →
      ∃ heap1 : Heap, heap1.length = heap.length
        ∧ writeBytes (heap ++ [b]) buffer writes = heap1 ++ [b] := by
  induction writes with
  | nil => intro heap _; exact ⟨heap, rfl, rfl⟩
  | cons w writes ih =>
    intro heap hlt
    obtain ⟨happ, hlen⟩ := writeByte_append heap b buffer w.1 w.2 hlt
    obtain ⟨heap1, hlen1, hw⟩ := ih (writeByte heap buffer w.1 w.2) (by omega)
    refine ⟨heap1, by omega, ?_⟩
    unfold writeBytes at hw ⊢
    rw [List.foldl_cons, happ, hw]

/-- C9. Defensive copy: for an allocated buffer with bytes `b`, `asByteBuffer`
returns a view on a new buffer holding exactly the bytes `b` (same length, same
byte at every index); the argument and every other existing buffer are left as
they were; and after any sequence of writes to the argument the bytes of the
returned view are still `b`. -/
theorem asByteBuffer_defensive_copy (heap : Heap) (arrayBuffer : Nat) (b : ArrayBuffer)
    (h : heap.get? arrayBuffer = some b) :
    ∃ (heap1 : Heap) (bb : ByteBuffer),
      asByteBuffer heap arrayBuffer = some (heap1, bb)
        ∧ bb.bytes heap1 = some b
        ∧ (bb.bytes heap1).map List.length = some b.length
        ∧ bb.buffer ≠ arrayBuffer
        ∧ heap.get? bb.buffer = none
        ∧ heap1.get? arrayBuffer = some b
        ∧ (∀ r : Nat, r < heap.length → heap1.get? r = heap.get? r)
        ∧ ∀ writes : List (Nat × Option Nat),
            bb.bytes (writeBytes heap1 arrayBuffer writes) = some b := by
  have hlt : arrayBuffer < heap.length := by
    rw [List.get?_eq_getElem?] at h
    exact (List.getElem?_eq_some.mp h).1
  have hbytes : ∀ heap0 : Heap, heap0.length = heap.length →
      ByteBuffer.bytes (heap0 ++ [b]) ⟨heap.length, 0, b.length⟩ = some b := by
    intro heap0 h0
    simp [ByteBuffer.bytes, ← h0]
  refine ⟨heap ++ [b], ⟨heap.length, 0, b.length⟩, asByteBuffer_eq heap arrayBuffer b h,
    hbytes heap rfl, ?_, ?_, ?_, ?_, ?_, ?_⟩
  · rw [hbytes heap rfl]
    rfl
  · exact fun e => absurd hlt (by simp only at e; omega)
  · simp
  · rw [List.get?_eq_getElem?, List.getElem?_append_left hlt, ← List.get?_eq_getElem?, h]
  · intro r hr
    rw [List.get?_eq_getElem?, List.getElem?_append_left hr, List.get?_eq_getElem?]
  · intro writes
    obtain ⟨heap0, h0, hw⟩ := writeBytes_append b arrayBuffer writes heap hlt
    rw [hw]
    exact hbytes heap0 h0

theorem asByteBuffer_defensive_copy_witness :
    asByteBuffer [[1, 2, 3], [4]] 0 = some ([[1, 2, 3], [4], [1, 2, 3]], ⟨2, 0, 3⟩)
      ∧ writeBytes [[1, 2, 3], [4], [1, 2, 3]] 0 [(0, some 511), (2, some 9)]
          = [[255, 2, 9], [4], [1, 2, 3]]
      ∧ ∃ (heap1 : Heap) (bb : ByteBuffer),
          asByteBuffer [[1, 2, 3], [4]] 0 = some (heap1, bb)
            ∧ bb.bytes (writeBytes heap1 0 [(0, some 511), (2, some 9)]) = some [1, 2, 3] :=
  ⟨by decide, by decide,
   (asByteBuffer_defensive_copy [[1, 2, 3], [4]] 0 [1, 2, 3] (by decide)).elim
     (fun heap1 hex => hex.elim (fun bb hbb =>
       ⟨heap1, bb, hbb.1, hbb.2.2.2.2.2.2.2 [(0, some 511), (2, some 9)]⟩))⟩

/-! ## The external message builder -/

/-- The record `buildExternalMsg` returns, property by property. -/
theorem buildExternalMsg_props (headers textPayload bytePayload contentType : JSValue) :
    (buildExternalMsg headers textPayload bytePayload contentType).props
      = [("headers", headers), ("textPayload", textPayload),
         ("bytePayload", bytePayload), ("contentType", contentType)] := by
  rfl

/-- C11. External message builder without exclusivity enforcement: for every
`headers`, `textPayload`, `bytePayload` and `contentType`, each a value or
`undefined`, `buildExternalMsg` returns a record whose four fields are the four
arguments; a text payload and a byte payload given together are both kept, and
the content type is stored as given whatever the payload. -/
theorem external_message_pass_through
    (headers textPayload bytePayload contentType : JSValue) :
    (buildExternalMsg headers textPayload bytePayload contentType).getProp "headers"
        = headers
    ∧ (buildExternalMsg headers textPayload bytePayload contentType).getProp "textPayload"
        = textPayload
    ∧ (buildExternalMsg headers textPayload bytePayload contentType).getProp "bytePayload"
        = bytePayload
    ∧ (buildExternalMsg headers textPayload bytePayload contentType).getProp "contentType"
        = contentType
    ∧ (buildExternalMsg headers textPayload bytePayload contentType).keys
        = ["headers", "textPayload", "bytePayload", "contentType"]
    ∧ (buildExternalMsg (JSValue.object 0) (JSValue.string (lit "on")) (JSValue.object 1)
        (JSValue.string (lit "application/json"))).props
        = [("headers", JSValue.object 0), ("textPayload", JSValue.string (lit "on")),
           ("bytePayload", JSValue.object 1),
           ("contentType", JSValue.string (lit "application/json"))]
    ∧ (buildExternalMsg JSValue.undefined JSValue.undefined JSValue.undefined
        JSValue.undefined).props
        = [("headers", JSValue.undefined), ("textPayload", JSValue.undefined),
           ("bytePayload", JSValue.undefined), ("contentType", JSValue.undefined)] := by
  exact ⟨rfl, rfl, rfl, rfl, rfl, rfl, rfl⟩

/-! ## Unambiguous topics -/

theorem split_topic (nspace id group channel criterion action : JSString)
    (h1 : slash ∉ nspace) (h2 : slash ∉ id) (h3 : slash ∉ group) (h4 : slash ∉ channel)
    (h5 : slash ∉ criterion) (h6 : slash ∉ action) :
    split slash (nspace ++ slash :: (id ++ slash :: (group ++ slash :: (channel
        ++ slash :: (criterion ++ slash :: action)))))
      = [nspace, id, group, channel, criterion, action] := by
  rw [split_append_sep _ _ _ h1, split_append_sep _ _ _ h2, split_append_sep _ _ _ h3,
    split_append_sep _ _ _ h4, split_append_sep _ _ _ h5, split_no_sep _ _ h6]

/-- C14. Topic is unambiguous on slash-free segments: when no segment of either
call contains `"/"`, equal topics force the six segments to be pairwise equal,
and splitting the topic at `"/"` returns the six arguments in order; without
that precondition two different argument tuples have the same topic. -/
theorem topic_unambiguous
    (nspace id group channel criterion action : JSString)
    (nspace2 id2 group2 channel2 criterion2 action2 : JSString)
    (path dittoHeaders value status extra : JSValue)
    (path2 dittoHeaders2 value2 status2 extra2 : JSValue)
    (h1 : slash ∉ nspace) (h2 : slash ∉ id) (h3 : slash ∉ group) (h4 : slash ∉ channel)
    (h5 : slash ∉ criterion) (h6 : slash ∉ action)
    (k1 : slash ∉ nspace2) (k2 : slash ∉ id2) (k3 : slash ∉ group2) (k4 : slash ∉ channel2)
    (k5 : slash ∉ criterion2) (k6 : slash ∉ action2) :
    ((buildDittoProtocolMsg nspace id group channel criterion action
          path dittoHeaders value status extra).getProp "topic"
        = (buildDittoProtocolMsg nspace2 id2 group2 channel2 criterion2 action2
          path2 dittoHeaders2 value2 status2 extra2).getProp "topic"
      → nspace = nspace2 ∧ id = id2 ∧ group = group2 ∧ channel = channel2
          ∧ criterion = criterion2 ∧ action = action2)
    ∧ topicSegments (buildDittoProtocolMsg nspace id group channel criterion action
          path dittoHeaders value status extra)
        = some [nspace, id, group, channel, criterion, action]
    ∧ ∃ a b c d : JSString, (a, b) ≠ (c, d)
        ∧ (buildDittoProtocolMsg a b group channel criterion action
            path dittoHeaders value status extra).getProp "topic"
          = (buildDittoProtocolMsg c d group channel criterion action
            path dittoHeaders value status extra).getProp "topic" := by
  refine ⟨?_, ?_, ?_⟩
  · intro heq
    rw [buildDittoProtocolMsg_topic, buildDittoProtocolMsg_topic] at heq
    have hs := congrArg (split slash) (JSValue.string.inj heq)
    rw [split_topic _ _ _ _ _ _ h1 h2 h3 h4 h5 h6,
      split_topic _ _ _ _ _ _ k1 k2 k3 k4 k5 k6] at hs
    simpa using hs
  · rw [topicSegments, buildDittoProtocolMsg_topic]
    simp only
    rw [split_topic _ _ _ _ _ _ h1 h2 h3 h4 h5 h6]
  · refine ⟨[97, slash, 98], [99], [97], [98, slash, 99], by decide, ?_⟩
    rw [buildDittoProtocolMsg_topic, buildDittoProtocolMsg_topic]
    simp

theorem topic_unambiguous_witness :
    (buildDittoProtocolMsg (lit "org.eclipse.ditto") (lit "thing-1") (lit "things")
          (lit "twin") (lit "commands") (lit "modify")
          JSValue.undefined JSValue.undefined JSValue.undefined JSValue.undefined
          JSValue.undefined).getProp "topic"
        = (buildDittoProtocolMsg (lit "org.eclipse.ditto") (lit "thing-1") (lit "things")
          (lit "twin") (lit "commands") (lit "modify")
          JSValue.null JSValue.null JSValue.null JSValue.null JSValue.null).getProp "topic"
    ∧ topicSegments (buildDittoProtocolMsg (lit "org.eclipse.ditto") (lit "thing-1")
          (lit "things") (lit "twin") (lit "commands") (lit "modify")
          JSValue.undefined JSValue.undefined JSValue.undefined JSValue.undefined
          JSValue.undefined)
        = some [lit "org.eclipse.ditto", lit "thing-1", lit "things", lit "twin",
            lit "commands", lit "modify"]
    ∧ (lit "a/b", lit "c") ≠ (lit "a", lit "b/c")
    ∧ (buildDittoProtocolMsg (lit "a/b") (lit "c") (lit "things") (lit "twin")
          (lit "commands") (lit "modify") JSValue.undefined JSValue.undefined
          JSValue.undefined JSValue.undefined JSValue.undefined).getProp "topic"
        = (buildDittoProtocolMsg (lit "a") (lit "b/c") (lit "things") (lit "twin")
          (lit "commands") (lit "modify") JSValue.undefined JSValue.undefined
          JSValue.undefined JSValue.undefined JSValue.undefined).getProp "topic" :=
  ⟨by decide,
   (topic_unambiguous (lit "org.eclipse.ditto") (lit "thing-1") (lit "things")
          (lit "twin") (lit "commands") (lit "modify")
          (lit "org.eclipse.ditto") (lit "thing-1") (lit "things")
          (lit "twin") (lit "commands") (lit "modify")
          JSValue.undefined JSValue.undefined JSValue.undefined JSValue.undefined
          JSValue.undefined
          JSValue.null JSValue.null JSValue.null JSValue.null JSValue.null
          (by decide) (by decide) (by decide) (by decide) (by decide) (by decide)
          (by decide) (by decide) (by decide) (by decide) (by decide) (by decide)).2.1,
   by decide, by decide⟩

/-! ## Concatenation and normalisation -/

theorem stringToArrayBuffer_arrayBufferToString (b : ArrayBuffer) :
    stringToArrayBuffer (arrayBufferToString b) = b := by
  rw [stringToArrayBuffer_eq_map, arrayBufferToString_eq_map, List.map_map, map_eq_self_iff]
  intro x _
  exact lowByte_toUint16 x

/-- C15. The codec is a homomorphism for concatenation:
`stringToArrayBuffer(s ++ t)` is `stringToArrayBuffer(s)` followed by
`stringToArrayBuffer(t)`, `arrayBufferToString(a ++ b)` is
`arrayBufferToString(a) ++ arrayBufferToString(b)`, and each output has the
length of its input. -/
theorem codec_concatenation (s t : JSString) (a b : ArrayBuffer) :
    stringToArrayBuffer (s ++ t) = stringToArrayBuffer s ++ stringToArrayBuffer t
      ∧ arrayBufferToString (a ++ b) = arrayBufferToString a ++ arrayBufferToString b
      ∧ (stringToArrayBuffer s).length = s.length
      ∧ (arrayBufferToString a).length = a.length := by
  refine ⟨?_, ?_, ?_, ?_⟩
  · rw [stringToArrayBuffer_eq_map, stringToArrayBuffer_eq_map, stringToArrayBuffer_eq_map,
      List.map_append]
  · rw [arrayBufferToString_eq_map, arrayBufferToString_eq_map, arrayBufferToString_eq_map,
      List.map_append]
  · rw [stringToArrayBuffer_eq_map, List.length_map]
  · rw [arrayBufferToString_eq_map, List.length_map]

/-- C16. Normalisation is idempotent: with
`n(t) = arrayBufferToString(stringToArrayBuffer(t))`, for every text `t`
`n(n(t)) = n(t)` and `stringToArrayBuffer(n(t)) = stringToArrayBuffer(t)`;
for the text U+20AC one pass gives U+00AC and a second pass changes nothing. -/
theorem normalisation_idempotent (t : JSString) :
    arrayBufferToString (stringToArrayBuffer
        (arrayBufferToString (stringToArrayBuffer t)))
      = arrayBufferToString (stringToArrayBuffer t)
    ∧ stringToArrayBuffer (arrayBufferToString (stringToArrayBuffer t))
      = stringToArrayBuffer t
    ∧ arrayBufferToString (stringToArrayBuffer (lit "€")) = lit "¬"
    ∧ arrayBufferToString (stringToArrayBuffer (lit "¬")) = lit "¬" := by
  refine ⟨?_, stringToArrayBuffer_arrayBufferToString _, by decide, by decide⟩
  rw [stringToArrayBuffer_arrayBufferToString]

/-! ## Empty and absent input -/

/-- A call of `asByteBuffer` on an allocated buffer returns the run of
`asByteBuffer_eq`. -/
theorem asByteBufferCall_eq (heap : Heap) (arrayBuffer : Nat) (b : ArrayBuffer)
    (h : heap.get? arrayBuffer = some b) :
    asByteBufferCall heap (some arrayBuffer)
      = Except.ok (heap ++ [b], ⟨heap.length, 0, b.length⟩) := by
  simp only [asByteBufferCall, asByteBuffer_eq heap arrayBuffer b h]

/-- C12 as stated fails: `stringToArrayBuffer` called without its argument
raises a `TypeError`; it returns no buffer. -/
theorem stringToArrayBuffer_absent_throws :
    stringToArrayBufferCall none = Except.error JSError.typeError
      ∧ ¬ ∃ buffer : ArrayBuffer, stringToArrayBufferCall none = Except.ok buffer := by
  refine ⟨rfl, ?_⟩
  rintro ⟨buffer, h⟩
  cases h

/-- C12 amended. Empty and absent input: `arrayBufferToString` of the empty
buffer is the empty string, `stringToArrayBuffer("")` is a buffer of length 0,
`asByteBuffer` of an empty buffer is a wrapped buffer of length 0,
`buildDittoProtocolMsg` with six empty strings has topic `"/////"`, both
builders return a record when their optional arguments are left out, and
`arrayBufferToString` without its argument returns the empty string;
`stringToArrayBuffer` without its argument raises a `TypeError`. -/
theorem defined_on_empty_input (heap : Heap) (arrayBuffer : Nat)
    (nspace id group channel criterion action : JSString)
    (path dittoHeaders headers : JSValue) :
    arrayBufferToStringCall (some []) = Except.ok []
    ∧ stringToArrayBufferCall (some []) = Except.ok []
    ∧ (stringToArrayBuffer []).length = 0
    ∧ (heap.get? arrayBuffer = some [] →
        ∃ (heap1 : Heap) (bb : ByteBuffer),
          asByteBufferCall heap (some arrayBuffer) = Except.ok (heap1, bb)
            ∧ bb.bytes heap1 = some []
            ∧ (bb.bytes heap1).map List.length = some 0)
    ∧ (buildDittoProtocolMsg [] [] [] [] [] [] path dittoHeaders JSValue.undefined
        JSValue.undefined JSValue.undefined).getProp "topic" = JSValue.string (lit "/////")
    ∧ (buildDittoProtocolMsg nspace id group channel criterion action path dittoHeaders
        JSValue.undefined JSValue.undefined JSValue.undefined).props
        = [("topic", JSValue.string (nspace ++ lit "/" ++ id ++ lit "/" ++ group ++ lit "/"
              ++ channel ++ lit "/" ++ criterion ++ lit "/" ++ action)),
           ("path", path), ("headers", dittoHeaders), ("value", JSValue.undefined),
           ("status", JSValue.undefined), ("extra", JSValue.undefined)]
    ∧ (buildExternalMsg headers JSValue.undefined JSValue.undefined JSValue.undefined).props
        = [("headers", headers), ("textPayload", JSValue.undefined),
           ("bytePayload", JSValue.undefined), ("contentType", JSValue.undefined)]
    ∧ arrayBufferToStringCall none = Except.ok []
    ∧ stringToArrayBufferCall none = Except.error JSError.typeError := by
  refine ⟨rfl, rfl, rfl, ?_, ?_, rfl, rfl, rfl, rfl⟩
  · intro h
    refine ⟨heap ++ [[]], ⟨heap.length, 0, 0⟩, ?_, ?_, ?_⟩
    · exact asByteBufferCall_eq heap arrayBuffer [] h
    · simp [ByteBuffer.bytes]
    · simp [ByteBuffer.bytes]
  · rw [buildDittoProtocolMsg_topic]
    decide

theorem defined_on_empty_input_witness :
    ∃ (heap1 : Heap) (bb : ByteBuffer),
      asByteBufferCall [[7], []] (some 1) = Except.ok (heap1, bb)
        ∧ bb.bytes heap1 = some [] :=
  ((defined_on_empty_input [[7], []] 1 [] [] [] [] [] [] JSValue.undefined JSValue.undefined
      JSValue.undefined).2.2.2.1 (by decide)).elim
    (fun heap1 hex => hex.elim (fun bb hbb => ⟨heap1, bb, hbb.1, hbb.2.1⟩))

/-! ## Totality -/

theorem bind_eq_ok_iff {α β : Type} (x : Except JSError α) (f : α → Except JSError β)
    (b : β) : x.bind f = Except.ok b ↔ ∃ a, x = Except.ok a ∧ f a = Except.ok b := by
  cases x with
  | error e => simp [Except.bind]
  | ok a => simp [Except.bind]

/-- A call of the builder returns exactly the record built from the six converted
segments. -/
theorem buildDittoProtocolMsgCall_eq_ok_iff
    (objectToString : Nat → Except JSError JSString) (numberToString : Int → JSString)
    (nspace id group channel criterion action : JSValue)
    (path dittoHeaders value status extra : JSValue) (msg : JSObject) :
    buildDittoProtocolMsgCall objectToString numberToString nspace id group channel
        criterion action path dittoHeaders value status extra = Except.ok msg
      ↔ ∃ s1 s2 s3 s4 s5 s6 : JSString,
          toStringOperand objectToString numberToString nspace = Except.ok s1
          ∧ toStringOperand objectToString numberToString id = Except.ok s2
          ∧ toStringOperand objectToString numberToString group = Except.ok s3
          ∧ toStringOperand objectToString numberToString channel = Except.ok s4
          ∧ toStringOperand objectToString numberToString criterion = Except.ok s5
          ∧ toStringOperand objectToString numberToString action = Except.ok s6
          ∧ msg = buildDittoProtocolMsg s1 s2 s3 s4 s5 s6
              path dittoHeaders value status extra := by
  unfold buildDittoProtocolMsgCall
  simp only [bind_eq_ok_iff, Except.ok.injEq]
  constructor
  · rintro ⟨s1, h1, s2, h2, s3, h3, s4, h4, s5, h5, s6, h6, hm⟩
    exact ⟨s1, s2, s3, s4, s5, s6, h1, h2, h3, h4, h5, h6, hm.symm⟩
  · rintro ⟨s1, s2, s3, s4, s5, s6, h1, h2, h3, h4, h5, h6, hm⟩
    exact ⟨s1, h1, s2, h2, s3, h3, s4, h4, s5, h5, s6, h6, hm.symm⟩

theorem toStringOperand_primitive (objectToString : Nat → Except JSError JSString)
    (numberToString : Int → JSString) (v : JSValue) (h : ∀ ref, v ≠ JSValue.object ref) :
    ∃ t, toStringOperand objectToString numberToString v = Except.ok t := by
  cases v with
  | object ref => exact absurd rfl (h ref)
  | undefined => exact ⟨_, rfl⟩
  | null => exact ⟨_, rfl⟩
  | boolean b => exact ⟨_, rfl⟩
  | number n => exact ⟨_, rfl⟩
  | string s => exact ⟨_, rfl⟩

theorem asByteBuffer_dangling (heap : Heap) (arrayBuffer : Nat)
    (h : heap.length ≤ arrayBuffer) : asByteBuffer heap arrayBuffer = none := by
  have hget : heap.get? arrayBuffer = none := by
    rw [List.get?_eq_getElem?]
    exact List.getElem?_eq_none h
  unfold asByteBuffer
  rw [hget]

/-- C13 as stated fails: `asByteBuffer` called without its argument raises a
`TypeError` and returns no result; `buildDittoProtocolMsg` called with a
namespace object whose conversion to a string raises (its `toString` throws)
raises that error and returns no record. -/
theorem asByteBuffer_absent_throws :
    asByteBufferCall [[1, 2, 3]] none = Except.error JSError.typeError
      ∧ (¬ ∃ result : Heap × ByteBuffer,
          asByteBufferCall [[1, 2, 3]] none = Except.ok result)
      ∧ buildDittoProtocolMsgCall (fun _ => Except.error JSError.typeError) (fun _ => [])
          (JSValue.object 0) (JSValue.string (lit "thing-1")) (JSValue.string (lit "things"))
          (JSValue.string (lit "twin")) (JSValue.string (lit "commands"))
          (JSValue.string (lit "modify")) JSValue.undefined JSValue.undefined
          JSValue.undefined JSValue.undefined JSValue.undefined
        = Except.error JSError.typeError := by
  refine ⟨rfl, ?_, rfl⟩
  rintro ⟨result, h⟩
  cases h

/-- C13 amended. Where the operations return and where they raise.
`buildDittoProtocolMsg` returns exactly when each of its six segment arguments
converts to a string, which `undefined`, `null`, booleans, numbers and strings
always do; it then returns a record with the six fields, never `null`, and with
every argument left out the topic is
`"undefined/undefined/undefined/undefined/undefined/undefined"`.
`buildExternalMsg` returns a record for all argument values.
`arrayBufferToString` returns for every buffer of any length and for a missing
argument.  `stringToArrayBuffer` returns for every string of any length and
raises a `TypeError` exactly when its argument is missing.  `asByteBuffer`
returns exactly for a reference to an allocated buffer, with a copy of its
bytes, and raises a `TypeError` when its argument is missing. -/
theorem total_on_documented_input
    (objectToString : Nat → Except JSError JSString) (numberToString : Int → JSString)
    (heap : Heap) (arrayBuffer : Option Nat) (buffer : Option ArrayBuffer)
    (string : Option JSString)
    (nspace id group channel criterion action : JSValue)
    (path dittoHeaders value status extra : JSValue)
    (headers textPayload bytePayload contentType : JSValue) :
    ((∃ msg, buildDittoProtocolMsgCall objectToString numberToString nspace id group
          channel criterion action path dittoHeaders value status extra = Except.ok msg)
      ↔ ∀ v ∈ [nspace, id, group, channel, criterion, action],
          ∃ t, toStringOperand objectToString numberToString v = Except.ok t)
    ∧ (∀ msg, buildDittoProtocolMsgCall objectToString numberToString nspace id group
          channel criterion action path dittoHeaders value status extra = Except.ok msg →
        msg.keys = ["topic", "path", "headers", "value", "status", "extra"]
          ∧ msg.getProp "path" = path ∧ msg.getProp "headers" = dittoHeaders
          ∧ msg.getProp "value" = value ∧ msg.getProp "status" = status
          ∧ msg.getProp "extra" = extra)
    ∧ ((∀ v ∈ [nspace, id, group, channel, criterion, action],
          ∀ ref, v ≠ JSValue.object ref) →
        ∃ msg, buildDittoProtocolMsgCall objectToString numberToString nspace id group
          channel criterion action path dittoHeaders value status extra = Except.ok msg)
    ∧ buildDittoProtocolMsgCall objectToString numberToString JSValue.undefined
        JSValue.undefined JSValue.undefined JSValue.undefined JSValue.undefined
        JSValue.undefined JSValue.undefined JSValue.undefined JSValue.undefined
        JSValue.undefined JSValue.undefined
        = Except.ok ⟨[("topic", JSValue.string
              (lit "undefined/undefined/undefined/undefined/undefined/undefined")),
            ("path", JSValue.undefined), ("headers", JSValue.undefined),
            ("value", JSValue.undefined), ("status", JSValue.undefined),
            ("extra", JSValue.undefined)]⟩
    ∧ (buildExternalMsg headers textPayload bytePayload contentType).props
        = [("headers", headers), ("textPayload", textPayload),
           ("bytePayload", bytePayload), ("contentType", contentType)]
    ∧ arrayBufferToStringCall buffer
        = Except.ok ((buffer.getD []).map (fun x => toUint16 x.val))
    ∧ ((∃ result, stringToArrayBufferCall string = Except.ok result) ↔ string ≠ none)
    ∧ (∀ s, string = some s → stringToArrayBufferCall string = Except.ok (s.map lowByte))
    ∧ (string = none → stringToArrayBufferCall string = Except.error JSError.typeError)
    ∧ ((∃ result, asByteBufferCall heap arrayBuffer = Except.ok result)
        ↔ ∃ ref, arrayBuffer = some ref ∧ ref < heap.length)
    ∧ (∀ ref contents, arrayBuffer = some ref → heap.get? ref = some contents →
        asByteBufferCall heap arrayBuffer
          = Except.ok (heap ++ [contents], ⟨heap.length, 0, contents.length⟩))
    ∧ (arrayBuffer = none →
        asByteBufferCall heap arrayBuffer = Except.error JSError.typeError) := by
  have hiff := buildDittoProtocolMsgCall_eq_ok_iff objectToString numberToString
    nspace id group channel criterion action path dittoHeaders value status extra
  have hret : (∀ v ∈ [nspace, id, group, channel, criterion, action],
      ∃ t, toStringOperand objectToString numberToString v = Except.ok t) →
      ∃ msg, buildDittoProtocolMsgCall objectToString numberToString nspace id group
        channel criterion action path dittoHeaders value status extra = Except.ok msg := by
    intro h
    obtain ⟨s1, h1⟩ := h nspace (by simp)
    obtain ⟨s2, h2⟩ := h id (by simp)
    obtain ⟨s3, h3⟩ := h group (by simp)
    obtain ⟨s4, h4⟩ := h channel (by simp)
    obtain ⟨s5, h5⟩ := h criterion (by simp)
    obtain ⟨s6, h6⟩ := h action (by simp)
    exact ⟨_, (hiff _).mpr ⟨s1, s2, s3, s4, s5, s6, h1, h2, h3, h4, h5, h6, rfl⟩⟩
  refine ⟨⟨?_, hret⟩, ?_, ?_, ?_, rfl, ?_, ?_, ?_, ?_, ?_, ?_, ?_⟩
  · rintro ⟨msg, hmsg⟩ v hv
    obtain ⟨s1, s2, s3, s4, s5, s6, h1, h2, h3, h4, h5, h6, _⟩ := (hiff msg).mp hmsg
    simp only [List.mem_cons, List.mem_singleton, List.not_mem_nil, or_false] at hv
    rcases hv with rfl | rfl | rfl | rfl | rfl | rfl
    · exact ⟨s1, h1⟩
    · exact ⟨s2, h2⟩
    · exact ⟨s3, h3⟩
    · exact ⟨s4, h4⟩
    · exact ⟨s5, h5⟩
    · exact ⟨s6, h6⟩
  · intro msg hmsg
    obtain ⟨s1, s2, s3, s4, s5, s6, _, _, _, _, _, _, rfl⟩ := (hiff msg).mp hmsg
    exact ⟨rfl, rfl, rfl, rfl, rfl, rfl⟩
  · intro h
    exact hret (fun v hv =>
      toStringOperand_primitive objectToString numberToString v (h v hv))
  · have hcall : buildDittoProtocolMsgCall objectToString numberToString JSValue.undefined
        JSValue.undefined JSValue.undefined JSValue.undefined JSValue.undefined
        JSValue.undefined JSValue.undefined JSValue.undefined JSValue.undefined
        JSValue.undefined JSValue.undefined
        = Except.ok (buildDittoProtocolMsg (lit "undefined") (lit "undefined")
            (lit "undefined") (lit "undefined") (lit "undefined") (lit "undefined")
            JSValue.undefined JSValue.undefined JSValue.undefined JSValue.undefined
            JSValue.undefined) := rfl
    rw [hcall]
    exact congrArg Except.ok (by decide)
  · cases buffer with
    | none => rfl
    | some contents =>
      simp only [arrayBufferToStringCall, arrayBufferToString_eq_map, Option.getD_some]
  · cases string with
    | none =>
      simp only [stringToArrayBufferCall, ne_eq, not_true_eq_false, iff_false, not_exists]
      intro result h
      cases h
    | some s => simp [stringToArrayBufferCall]
  · intro s hs
    subst hs
    simp only [stringToArrayBufferCall, stringToArrayBuffer_eq_map]
  · intro hs
    subst hs
    rfl
  · constructor
    · rintro ⟨result, hres⟩
      cases arrayBuffer with
      | none => cases hres
      | some ref =>
        refine ⟨ref, rfl, ?_⟩
        by_contra hge
        have hnone := asByteBuffer_dangling heap ref (Nat.le_of_not_lt hge)
        simp only [asByteBufferCall, hnone] at hres
        cases hres
    · rintro ⟨ref, rfl, hlt⟩
      have hget : heap.get? ref = some (heap.get ⟨ref, hlt⟩) := List.get?_eq_get hlt
      exact ⟨_, asByteBufferCall_eq heap ref _ hget⟩
  · intro ref contents ha hget
    subst ha
    exact asByteBufferCall_eq heap ref contents hget
  · intro ha
    subst ha
    rfl

theorem total_on_documented_input_witness :
    (∃ result, asByteBufferCall [[1, 2, 3], [4]] (some 1) = Except.ok result)
      ∧ asByteBufferCall [[1, 2, 3], [4]] (some 1)
          = Except.ok ([[1, 2, 3], [4], [4]], ⟨2, 0, 1⟩)
      ∧ ∃ msg, buildDittoProtocolMsgCall (fun _ => Except.error JSError.typeError)
          (fun _ => lit "200") JSValue.undefined JSValue.null (JSValue.boolean true)
          (JSValue.number 200) (JSValue.string (lit "commands"))
          (JSValue.string (lit "modify")) JSValue.undefined (JSValue.object 3)
          JSValue.undefined JSValue.undefined JSValue.undefined = Except.ok msg :=
  ⟨(total_on_documented_input (fun _ => Except.error JSError.typeError) (fun _ => lit "200")
      [[1, 2, 3], [4]] (some 1) none none
      JSValue.undefined JSValue.null (JSValue.boolean true) (JSValue.number 200)
      (JSValue.string (lit "commands")) (JSValue.string (lit "modify"))
      JSValue.undefined (JSValue.object 3) JSValue.undefined JSValue.undefined
      JSValue.undefined JSValue.undefined JSValue.undefined JSValue.undefined
      JSValue.undefined).2.2.2.2.2.2.2.2.2.1.mpr ⟨1, rfl, by decide⟩,
   rfl,
   (total_on_documented_input (fun _ => Except.error JSError.typeError) (fun _ => lit "200")
      [[1, 2, 3], [4]] (some 1) none none
      JSValue.undefined JSValue.null (JSValue.boolean true) (JSValue.number 200)
      (JSValue.string (lit "commands")) (JSValue.string (lit "modify"))
      JSValue.undefined (JSValue.object 3) JSValue.undefined JSValue.undefined
      JSValue.undefined JSValue.undefined JSValue.undefined JSValue.undefined
      JSValue.undefined).2.2.1 (by
        intro v hv ref
        simp only [List.mem_cons, List.mem_singleton, List.not_mem_nil, or_false] at hv
        rcases hv with rfl | rfl | rfl | rfl | rfl | rfl <;> simp)⟩

end Ditto
